import Mathlib

/-!
Verification of the "Кіт Кухар" recipe application's core logic:
the portion-scaling computation and quantity formatter
(frontend/components/PortionCalculator.tsx), the recipe-form save
validation (frontend/components/RecipeForm.tsx), the legacy step-string
conversion (frontend/components/RecipeForm.tsx loadRecipe), and the
structured step-list maintenance operations of the StepManager component
(whose source appears in frontend/components/admin/RecipeManager.tsx
after the document separator, lines 442-748).

Numbers that the TypeScript source handles as IEEE doubles are embedded
as exact rationals (ℚ); the spec describes the computation in
real-number arithmetic, and none of the verified properties depend on
floating-point rounding.  JavaScript strings are embedded as Lean
`String`, with the JS `split`/`trim` primitives re-implemented over
`List Char` (see `splitLines`, `trimChars`) so that they are
kernel-executable and match the JS semantics on the characters that
occur in this application.
-/

/-- Embeds `calculateQuantity` from PortionCalculator.tsx (lines 40-43):
`const ratio = currentServings / originalServings; return originalQuantity * ratio`.
The component state `currentServings` plays the role of the desired serving
count. -/
def calculateQuantity (originalServings currentServings originalQuantity : ℚ) : ℚ :=
  originalQuantity * (currentServings / originalServings)

/-- Embeds `handleServingsChange` (PortionCalculator.tsx lines 63-72):
`const servings = Math.max(1, newServings); setCurrentServings(servings)`.
The returned value is the new `currentServings` state. -/
def handleServingsChange (newServings : ℤ) : ℤ :=
  max 1 newServings

/-- Embeds `incrementServings` (PortionCalculator.tsx lines 74-76). -/
def incrementServings (currentServings : ℤ) : ℤ :=
  handleServingsChange (currentServings + 1)

/-- Embeds `decrementServings` (PortionCalculator.tsx lines 78-80). -/
def decrementServings (currentServings : ℤ) : ℤ :=
  handleServingsChange (currentServings - 1)

/-- Embeds `handleDirectInput` (PortionCalculator.tsx lines 82-87).
`parsed` stands for the result of `parseInt(e.target.value)`: `none` models
`NaN` (the text did not parse to an integer), `some value` a successful
parse.  The state is updated only when the parse succeeded with a positive
value; otherwise `currentServings` is left unchanged. -/
def handleDirectInput (currentServings : ℤ) (parsed : Option ℤ) : ℤ :=
  match parsed with
  | none => currentServings
  | some value => if 0 < value then handleServingsChange value else currentServings

/-- Decimal digit character for `d ≤ 9` (used to embed JavaScript's decimal
number-to-string rendering). -/
def digitChar (d : ℕ) : Char :=
  if d = 0 then '0' else if d = 1 then '1' else if d = 2 then '2'
  else if d = 3 then '3' else if d = 4 then '4' else if d = 5 then '5'
  else if d = 6 then '6' else if d = 7 then '7' else if d = 8 then '8' else '9'

/-- Fuel-indexed decimal rendering of a natural number (most significant
digit first).  The fuel makes the recursion structural so that the kernel
can evaluate it. -/
def natDigitsAux : ℕ → ℕ → List Char
  | 0, _ => []
  | fuel + 1, n =>
    if n < 10 then [digitChar n]
    else natDigitsAux fuel (n / 10) ++ [digitChar (n % 10)]

/-- Decimal rendering of a natural number, as JavaScript's `toString`
renders a non-negative integer. -/
def natDigits (n : ℕ) : List Char :=
  natDigitsAux (n + 1) n

/-- Character-level rendering of the already-rounded quantity, whose exact
value is `n / 100` for the integer `n` of hundredths.  This embeds the two
rendering branches of `formatQuantity` (PortionCalculator.tsx lines 46-57):
when `n / 100` is a whole number (`rounded === Math.floor(rounded)`, i.e.
`n % 100 = 0`) JavaScript renders `rounded.toString()`, an integer with no
decimal point; otherwise it renders `rounded.toFixed(2)` — two fractional
digits — and strips trailing zeros (and nothing else, since the fractional
part is nonzero) with `.replace(/\.?0+$/, '')`, leaving one fractional
digit when the hundredths digit is zero and two otherwise. -/
def formatChars (n : ℤ) : List Char :=
  let sign : List Char := if n < 0 then ['-'] else []
  let m : ℕ := n.natAbs
  let whole : ℕ := m / 100
  let frac : ℕ := m % 100
  if frac = 0 then sign ++ natDigits whole
  else if frac % 10 = 0 then sign ++ natDigits whole ++ '.' :: natDigits (frac / 10)
  else sign ++ natDigits whole ++ '.' ::
    (if frac < 10 then '0' :: natDigits frac else natDigits frac)

/-- String form of `formatChars`. -/
def formatHundredths (n : ℤ) : String :=
  String.mk (formatChars n)

/-- The rounding step of `formatQuantity` (PortionCalculator.tsx line 48):
`const rounded = Math.round(quantity * 100) / 100`.  JavaScript's
`Math.round` rounds half-way cases toward +∞, exactly as Mathlib's
`round` does. -/
def roundTwo (q : ℚ) : ℚ :=
  (round (q * 100) : ℚ) / 100

/-- Embeds `formatQuantity` (PortionCalculator.tsx lines 46-57): round to
hundredths, then render per `formatChars`. -/
def formatQuantity (q : ℚ) : String :=
  formatHundredths (round (q * 100))

/-- Whitespace predicate used by JavaScript's `String.prototype.trim` for
the whitespace characters that occur in this application (space, tab,
carriage return, line feed). -/
def isSpaceChar (c : Char) : Bool :=
  c = ' ' || c = '\t' || c = '\n' || c = '\r'

/-- Character-level embedding of JavaScript's `trim`: drop leading and
trailing whitespace. -/
def trimChars (l : List Char) : List Char :=
  ((l.dropWhile isSpaceChar).reverse.dropWhile isSpaceChar).reverse

/-- String form of `trimChars`, the embedding of `s.trim()`. -/
def jsTrim (s : String) : String :=
  String.mk (trimChars s.data)

/-- Character-level embedding of JavaScript's `split('\n')`: the list of
maximal newline-free segments, with empty segments kept (as JS keeps
them); `splitLines [] = [[]]`, matching `''.split('\n') === ['']`. -/
def splitLines : List Char → List (List Char)
  | [] => [[]]
  | c :: cs =>
    match splitLines cs with
    | [] => [[]]
    | line :: rest =>
      if c = '\n' then [] :: line :: rest else (c :: line) :: rest

/-- String form of `splitLines`, the embedding of `s.split('\n')`. -/
def jsSplit (s : String) : List String :=
  (splitLines s.data).map String.mk

/-- Media attachment of a cooking step: `{type, url, alt}` per the
frontend types and backend `MediaFile` schema. -/
structure MediaAttachment where
  kind : String
  url : String
  alt : Option String
deriving DecidableEq

/-- An ingredient `{name, quantity, unit}` per the frontend `Ingredient`
type. -/
structure Ingredient where
  name : String
  quantity : ℚ
  unit : String
deriving DecidableEq

/-- A structured cooking step `{id, stepNumber, description, media}` per
the frontend `CookingStep` type. -/
structure CookingStep where
  id : String
  stepNumber : ℕ
  description : String
  media : List MediaAttachment
deriving DecidableEq

/-- Category entity `{id, name}`. -/
structure Category where
  id : ℤ
  name : String
deriving DecidableEq

/-- Tag entity `{id, name}`. -/
structure Tag where
  id : ℤ
  name : String
deriving DecidableEq

/-- The `RecipeForm` component state (`Partial<RecipeCreate>` in
RecipeForm.tsx lines 14-27).  Optional string fields that JavaScript
treats as falsy when absent or empty are embedded as `String` with `""`
for the falsy case; `ingredients`/`steps` that may be `undefined` are
embedded as lists with `[]` for the absent case (`handleSubmit` rejects
`undefined` and `[]` alike via `!recipe.steps || recipe.steps.length === 0`). -/
structure RecipeFormState where
  title : String
  description : String
  ingredients : List Ingredient
  steps : List CookingStep
  servings : ℤ
  category : Option Category
  tags : List Tag
deriving DecidableEq

/-- The payload `recipeData` built by `handleSubmit` (RecipeForm.tsx lines
113-121) and posted to the recipes API. -/
structure RecipePayload where
  title : String
  description : String
  ingredients : List Ingredient
  steps : List CookingStep
  servings : ℤ
  category_id : Option ℤ
  tags : List ℤ
deriving DecidableEq

/-- Embeds `handleSubmit` (RecipeForm.tsx lines 100-140).  The validation
guard (lines 103-107) returns with an error message and submits nothing —
modelled as `none`; otherwise the built `recipeData` payload (lines
113-121) is submitted — modelled as `some`.  Note that the payload keeps
only the ingredients whose trimmed name is non-empty
(`recipe.ingredients?.filter(ing => ing.name.trim() !== '')`), while the
guard only checks that the pre-filter ingredient list is non-empty. -/
def handleSubmit (recipe : RecipeFormState) : Option RecipePayload :=
  if recipe.title = "" ∨ recipe.ingredients = [] ∨ recipe.category = none ∨
      recipe.steps = [] ∨ recipe.steps.any (fun step => jsTrim step.description = "") then
    none
  else
    some
      { title := recipe.title
        description := recipe.description
        ingredients := recipe.ingredients.filter (fun ing => jsTrim ing.name ≠ "")
        steps := recipe.steps
        servings := recipe.servings
        category_id := recipe.category.map Category.id
        tags := recipe.tags.map Tag.id }

/-- Builds the structured steps for the non-blank line texts of a legacy
steps string, numbering from `i`: embeds
`stepTexts.map((stepText, index) => ({id: `step-N`, stepNumber: index + 1,
description: stepText.trim(), media: []}))` of RecipeForm.tsx lines 72-77,
with `i` standing for `index + 1`. -/
def numberStepsFrom : ℕ → List String → List CookingStep
  | _, [] => []
  | i, t :: ts =>
    { id := String.mk ("step-".data ++ natDigits i)
      stepNumber := i
      description := jsTrim t
      media := [] } :: numberStepsFrom (i + 1) ts

/-- The non-blank lines of a legacy newline-delimited steps string:
`recipeData.steps.split('\n').filter(step => step.trim())` (RecipeForm.tsx
line 71; the same expression appears in RecipeDetail.tsx lines 58-60). -/
def nonBlankLines (s : String) : List String :=
  (jsSplit s).filter (fun t => jsTrim t ≠ "")

/-- Embeds the legacy-steps conversion of `loadRecipe` (RecipeForm.tsx
lines 69-78): split on newlines, keep lines whose trimmed text is
non-empty, and build one `CookingStep` per kept line, numbered
sequentially from 1, with the trimmed line text as description. -/
def convertLegacySteps (s : String) : List CookingStep :=
  numberStepsFrom 1 (nonBlankLines s)

/-- Renumbers a step list from `i`, giving each element the step number of
its position. -/
def renumberFrom : ℕ → List CookingStep → List CookingStep
  | _, [] => []
  | i, s :: ss => { s with stepNumber := i } :: renumberFrom (i + 1) ss

/-- Embeds the renumbering pattern of the `StepManager` component (its
source appears in frontend/components/admin/RecipeManager.tsx after the
document separator; `removeStep` lines 466-474 and `moveStep` lines
548-561 both end with
`newSteps.map((step, i) => ({ ...step, stepNumber: i + 1 }))`):
every element receives the step number of its 1-based position. -/
def renumberSteps (steps : List CookingStep) : List CookingStep :=
  renumberFrom 1 steps

/-- Embeds `addStep` (StepManager source in admin/RecipeManager.tsx lines
456-464): append a fresh step with `stepNumber = steps.length + 1`, empty
description and no media.  The id `step-${Date.now()}` depends on the
clock, so the embedding takes the generated id as the `newId` argument. -/
def addStep (steps : List CookingStep) (newId : String) : List CookingStep :=
  steps ++ [{ id := newId, stepNumber := steps.length + 1, description := "", media := [] }]

/-- Embeds `removeStep` (StepManager source in admin/RecipeManager.tsx
lines 466-474): drop the element at `index` with
`steps.filter((_, i) => i !== index)`, then renumber. -/
def removeStep (steps : List CookingStep) (index : ℕ) : List CookingStep :=
  renumberSteps ((steps.enum.filter (fun p => p.1 ≠ index)).map Prod.snd)

/-- Embeds `moveStep` (StepManager source in admin/RecipeManager.tsx lines
548-561): the guard `if (toIndex < 0 || toIndex >= steps.length) return`
bounds-checks only `toIndex` (hence `toIndex : ℤ`, as the call sites pass
`index - 1`, which can be `-1`); past the guard, `splice(fromIndex, 1)`
removes the moved element and `splice(toIndex, 0, movedStep)` re-inserts
it, and the list is renumbered.  When `fromIndex` is in range this is
erase-then-insert of `steps[fromIndex]`.  When `fromIndex` is out of
range, `splice` removes nothing and `movedStep` is `undefined`, so the
JavaScript result contains the spread `{ ...undefined, stepNumber: i + 1 }`
— an object that is not a `CookingStep`; that result is not representable
in the typed data model and is embedded as `none`. -/
def moveStep (steps : List CookingStep) (fromIndex : ℕ) (toIndex : ℤ) :
    Option (List CookingStep) :=
  if toIndex < 0 ∨ (steps.length : ℤ) ≤ toIndex then some steps
  else
    match steps[fromIndex]? with
    | some movedStep =>
        some (renumberSteps ((steps.eraseIdx fromIndex).insertIdx toIndex.toNat movedStep))
    | none => none

/-- The step-numbering invariant of spec §4.2: `steps[k].stepNumber == k+1`
for every position `k`. -/
def stepsNumbered (steps : List CookingStep) : Prop :=
  ∀ k (h : k < steps.length), (steps[k]).stepNumber = k + 1

instance stepsNumberedDecidable (steps : List CookingStep) : Decidable (stepsNumbered steps) :=
  Nat.decidableBallLT steps.length _


/-- Concrete form state exercising the submit validation: the title,
category and step are filled in, but the single ingredient still has the
default empty name of the initial form state (RecipeForm.tsx line 17). -/
def sampleBlankIngredientForm : RecipeFormState :=
  { title := "Борщ"
    description := ""
    ingredients := [{ name := "", quantity := 1, unit := "шт" }]
    steps := [{ id := "step-1", stepNumber := 1, description := "Варити годину", media := [] }]
    servings := 4
    category := some { id := 1, name := "Супи" }
    tags := [] }

/-- Concrete fully-filled form state. -/
def sampleValidForm : RecipeFormState :=
  { title := "Борщ"
    description := "Класичний"
    ingredients := [{ name := "буряк", quantity := 2, unit := "шт" },
                    { name := " ", quantity := 1, unit := "г" }]
    steps := [{ id := "step-1", stepNumber := 1, description := "Варити годину", media := [] }]
    servings := 4
    category := some { id := 1, name := "Супи" }
    tags := [{ id := 7, name := "вегетаріанське" }] }

/-- The payload `handleSubmit` builds for `sampleValidForm`. -/
def sampleValidPayload : RecipePayload :=
  { title := "Борщ"
    description := "Класичний"
    ingredients := [{ name := "буряк", quantity := 2, unit := "шт" }]
    steps := [{ id := "step-1", stepNumber := 1, description := "Варити годину", media := [] }]
    servings := 4
    category_id := some 1
    tags := [7] }

/-- A concrete correctly-numbered two-step list. -/
def sampleSteps : List CookingStep :=
  [{ id := "step-1", stepNumber := 1, description := "Нарізати", media := [] },
   { id := "step-2", stepNumber := 2, description := "Змішати", media := [] }]

/-- The list `moveStep sampleSteps 0 1` produces: the two steps swapped
and renumbered. -/
def sampleMoved : List CookingStep :=
  [{ id := "step-2", stepNumber := 1, description := "Змішати", media := [] },
   { id := "step-1", stepNumber := 2, description := "Нарізати", media := [] }]

/-- Every rendered digit character is one of the ten digit characters. -/
theorem natDigitsAux_mem {fuel n : ℕ} {c : Char} (h : c ∈ natDigitsAux fuel n) :
    ∃ d, c = digitChar d := by
  induction fuel generalizing n with
  | zero => simp [natDigitsAux] at h
  | succ f ih =>
    simp only [natDigitsAux] at h
    split at h
    · simp only [List.mem_singleton] at h
      exact ⟨n, h⟩
    · rcases List.mem_append.mp h with h1 | h1
      · exact ih h1
      · simp only [List.mem_singleton] at h1
        exact ⟨n % 10, h1⟩

/-- Digit characters are never a decimal point. -/
theorem digitChar_ne_dot (d : ℕ) : digitChar d ≠ '.' := by
  unfold digitChar
  split_ifs <;> decide

/-- The digit character of a nonzero digit is not the zero character. -/
theorem digitChar_ne_zero {d : ℕ} (hd : d ≠ 0) : digitChar d ≠ '0' := by
  unfold digitChar
  split_ifs with h1 <;> first | exact absurd h1 hd | decide

/-- The rendering of a natural number ends in the character of its last
decimal digit. -/
theorem natDigitsAux_getLast? {fuel n : ℕ} (h : 0 < fuel) :
    (natDigitsAux fuel n).getLast? = some (digitChar (n % 10)) := by
  obtain ⟨f, rfl⟩ := Nat.exists_eq_add_of_lt h
  simp only [natDigitsAux]
  split
  · rw [Nat.mod_eq_of_lt (by assumption)]
    rfl
  · rw [List.getLast?_concat]

/-- `natDigits` version of `natDigitsAux_getLast?`. -/
theorem natDigits_getLast? (n : ℕ) :
    (natDigits n).getLast? = some (digitChar (n % 10)) :=
  natDigitsAux_getLast? (Nat.succ_pos n)

/-- The rendering of a natural number is non-empty. -/
theorem natDigits_ne_nil (n : ℕ) : natDigits n ≠ [] := by
  intro h
  have := natDigits_getLast? n
  rw [h] at this
  simp at this

/-- `natDigits` version of `natDigitsAux_mem`. -/
theorem natDigits_mem {n : ℕ} {c : Char} (h : c ∈ natDigits n) :
    ∃ d, c = digitChar d :=
  natDigitsAux_mem h

/-- An integer's hundredths remainder vanishes exactly when the remainder
of its absolute value does. -/
theorem natAbs_mod_hundred_eq_zero {n : ℤ} :
    n % 100 = 0 ↔ n.natAbs % 100 = 0 := by
  rw [← Nat.dvd_iff_mod_eq_zero]
  constructor
  · intro h
    have hdvd : (100 : ℤ) ∣ n := Int.dvd_of_emod_eq_zero h
    have h2 : ((100 : ℤ)).natAbs ∣ n.natAbs := Int.natAbs_dvd_natAbs.mpr hdvd
    simpa using h2
  · intro h
    have h2 : ((100 : ℤ)).natAbs ∣ n.natAbs := by simpa using h
    exact Int.emod_eq_zero_of_dvd (Int.natAbs_dvd_natAbs.mp h2)

/-- Dropping the head of a non-empty-tailed list keeps its last element. -/
theorem getLast?_cons_of_ne_nil {α : Type} {c : α} {l : List α} (h : l ≠ []) :
    (c :: l).getLast? = l.getLast? := by
  cases l with
  | nil => exact absurd rfl h
  | cons a as => rw [List.getLast?_cons_cons]

/-- When the rounded quantity is a whole number (its hundredths remainder
is zero), the rendered string has no decimal point. -/
theorem formatChars_whole {n : ℤ} (h : n % 100 = 0) : '.' ∉ formatChars n := by
  have hf : n.natAbs % 100 = 0 := natAbs_mod_hundred_eq_zero.mp h
  simp only [formatChars]
  rw [if_pos hf]
  intro hmem
  rcases List.mem_append.mp hmem with h1 | h1
  · revert h1
    split <;> decide
  · obtain ⟨d, hd⟩ := natDigits_mem h1
    exact digitChar_ne_dot d hd.symm

/-- When the rounded quantity is not a whole number, the rendered string
contains a decimal point and does not end in a zero digit (trailing zeros
are stripped). -/
theorem formatChars_fractional {n : ℤ} (h : n % 100 ≠ 0) :
    '.' ∈ formatChars n ∧ (formatChars n).getLast? ≠ some '0' := by
  have hf : n.natAbs % 100 ≠ 0 := fun hc => h (natAbs_mod_hundred_eq_zero.mpr hc)
  simp only [formatChars]
  rw [if_neg hf]
  by_cases h10 : n.natAbs % 100 % 10 = 0
  · rw [if_pos h10]
    constructor
    · simp [List.mem_append]
    · rw [List.getLast?_append, List.getLast?_append,
        getLast?_cons_of_ne_nil (natDigits_ne_nil _), natDigits_getLast?]
      intro hc
      simp only [Option.or, Option.some.injEq] at hc
      exact digitChar_ne_zero (by omega) hc
  · rw [if_neg h10]
    constructor
    · simp [List.mem_append]
    · by_cases hlt : n.natAbs % 100 < 10
      · rw [if_pos hlt, List.getLast?_append, List.getLast?_append,
          getLast?_cons_of_ne_nil (by simp),
          getLast?_cons_of_ne_nil (natDigits_ne_nil _), natDigits_getLast?]
        intro hc
        simp only [Option.or, Option.some.injEq] at hc
        exact digitChar_ne_zero (by omega) hc
      · rw [if_neg hlt, List.getLast?_append, List.getLast?_append,
          getLast?_cons_of_ne_nil (natDigits_ne_nil _), natDigits_getLast?]
        intro hc
        simp only [Option.or, Option.some.injEq] at hc
        exact digitChar_ne_zero (by omega) hc

/-- Numbering a list of step texts yields one step per text. -/
theorem numberStepsFrom_length (base : ℕ) (ts : List String) :
    (numberStepsFrom base ts).length = ts.length := by
  induction ts generalizing base with
  | nil => rfl
  | cons t ts ih => simp [numberStepsFrom, ih]

/-- Position `k` of the numbered list carries step number `base + k` and
the trimmed text of position `k`. -/
theorem numberStepsFrom_getElem? (base k : ℕ) (ts : List String) :
    ((numberStepsFrom base ts)[k]?).map CookingStep.stepNumber =
      (ts[k]?).map (fun _ => base + k) ∧
    ((numberStepsFrom base ts)[k]?).map CookingStep.description =
      (ts[k]?).map jsTrim := by
  induction ts generalizing base k with
  | nil => simp [numberStepsFrom]
  | cons t ts ih =>
    cases k with
    | zero => simp [numberStepsFrom]
    | succ k =>
      simp only [numberStepsFrom, List.getElem?_cons_succ]
      have hb : base + (k + 1) = (base + 1) + k := by omega
      rw [hb]
      exact ih (base + 1) k

/-- Renumbering preserves length. -/
theorem renumberFrom_length (base : ℕ) (l : List CookingStep) :
    (renumberFrom base l).length = l.length := by
  induction l generalizing base with
  | nil => rfl
  | cons s ss ih => simp [renumberFrom, ih]

/-- Position `k` of a renumbered list carries step number `base + k`. -/
theorem renumberFrom_getElem (l : List CookingStep) (base k : ℕ)
    (h : k < (renumberFrom base l).length) :
    ((renumberFrom base l)[k]).stepNumber = base + k := by
  induction l generalizing base k with
  | nil => simp [renumberFrom] at h
  | cons s ss ih =>
    cases k with
    | zero => rfl
    | succ k =>
      simp only [renumberFrom, List.getElem_cons_succ]
      have hb : base + (k + 1) = (base + 1) + k := by omega
      rw [hb]
      exact ih (base + 1) k (by simpa [renumberFrom] using h)

/-- Full renumbering establishes the step-numbering invariant on any
list. -/
theorem stepsNumbered_renumberSteps (l : List CookingStep) :
    stepsNumbered (renumberSteps l) := by
  intro k h
  unfold renumberSteps at h ⊢
  rw [renumberFrom_getElem l 1 k h]
  omega

/-- C1: for every ingredient quantity `q` and servings `s1, s2 ≥ 1`, the
portion calculator's scaled quantity `q * (s2 / s1)` equals `q * s2 / s1`
in exact real-number arithmetic. -/
theorem calculateQuantity_eq_ratio (q s1 s2 : ℚ) (h1 : 1 ≤ s1) (h2 : 1 ≤ s2) :
    calculateQuantity s1 s2 q = q * s2 / s1 := by
  unfold calculateQuantity
  rw [mul_div_assoc]

/-- Witness for C1 at `q = 100`, `s1 = 4`, `s2 = 6`. -/
theorem calculateQuantity_eq_ratio_witness :
    (1:ℚ) ≤ 4 ∧ (1:ℚ) ≤ 6 ∧ calculateQuantity 4 6 100 = 100 * 6 / 4 :=
  ⟨by decide, by decide, calculateQuantity_eq_ratio 100 4 6 (by decide) (by decide)⟩

/-- C3: scaling with equal original and desired servings `s ≥ 1` returns
the quantity unchanged, and a zero quantity scales to zero for any
servings `s1, s2 ≥ 1`; both are total computations (no error). -/
theorem calculateQuantity_identity_zero (q s s1 s2 : ℚ)
    (hs : 1 ≤ s) (h1 : 1 ≤ s1) (h2 : 1 ≤ s2) :
    calculateQuantity s s q = q ∧ calculateQuantity s1 s2 0 = 0 := by
  constructor
  · unfold calculateQuantity
    rw [div_self (by linarith : s ≠ 0), mul_one]
  · unfold calculateQuantity
    exact zero_mul _

/-- Witness for C3 at `s = 3`, `q = 7`, `s1 = 2`, `s2 = 5`. -/
theorem calculateQuantity_identity_zero_witness :
    (1:ℚ) ≤ 3 ∧ (1:ℚ) ≤ 2 ∧ (1:ℚ) ≤ 5 ∧
    (calculateQuantity 3 3 7 = 7 ∧ calculateQuantity 2 5 0 = 0) :=
  ⟨by decide, by decide, by decide,
    calculateQuantity_identity_zero 7 3 2 5 (by decide) (by decide) (by decide)⟩

/-- C4: starting from a serving count of at least 1, every state-changing
operation of the portion calculator (direct change, increment, decrement,
direct numeric input) yields a serving count of at least 1. -/
theorem servings_min_one (currentServings newServings : ℤ) (parsed : Option ℤ)
    (h : 1 ≤ currentServings) :
    1 ≤ handleServingsChange newServings ∧
    1 ≤ incrementServings currentServings ∧
    1 ≤ decrementServings currentServings ∧
    1 ≤ handleDirectInput currentServings parsed := by
  refine ⟨le_max_left 1 _, le_max_left 1 _, le_max_left 1 _, ?_⟩
  cases parsed with
  | none => exact h
  | some value =>
    simp only [handleDirectInput]
    by_cases hv : 0 < value
    · rw [if_pos hv]
      exact le_max_left 1 _
    · rw [if_neg hv]
      exact h

/-- Witness for C4 at `currentServings = 5`, a decrement past the bound,
and a negative direct input. -/
theorem servings_min_one_witness :
    (1:ℤ) ≤ 5 ∧
    (1 ≤ handleServingsChange (-3) ∧ 1 ≤ incrementServings 5 ∧
     1 ≤ decrementServings 5 ∧ 1 ≤ handleDirectInput 5 (some (-2))) :=
  ⟨by decide, servings_min_one 5 (-3) (some (-2)) (by decide)⟩

/-- C9: a direct serving input whose text fails to parse (`parseInt` gives
`NaN`, modelled `none`) or parses to a non-positive value leaves the
serving count unchanged, so every displayed quantity stays unchanged. -/
theorem handleDirectInput_rejects_invalid (currentServings : ℤ) (parsed : Option ℤ)
    (h : parsed = none ∨ ∃ v, parsed = some v ∧ v ≤ 0) :
    handleDirectInput currentServings parsed = currentServings ∧
    ∀ s1 q : ℚ,
      calculateQuantity s1 ((handleDirectInput currentServings parsed : ℤ) : ℚ) q =
        calculateQuantity s1 ((currentServings : ℤ) : ℚ) q := by
  have hmain : handleDirectInput currentServings parsed = currentServings := by
    rcases h with rfl | ⟨v, rfl, hv⟩
    · rfl
    · simp only [handleDirectInput]
      rw [if_neg (by omega : ¬ (0:ℤ) < v)]
  exact ⟨hmain, fun s1 q => by rw [hmain]⟩

/-- Witness for C9 at `currentServings = 7` and input parsing to `0`. -/
theorem handleDirectInput_rejects_invalid_witness :
    handleDirectInput 7 (some 0) = 7 ∧
    calculateQuantity 4 ((handleDirectInput 7 (some 0) : ℤ) : ℚ) 100 =
      calculateQuantity 4 (((7:ℤ) : ℤ) : ℚ) 100 :=
  ⟨(handleDirectInput_rejects_invalid 7 (some 0) (Or.inr ⟨0, rfl, le_refl 0⟩)).1,
   (handleDirectInput_rejects_invalid 7 (some 0) (Or.inr ⟨0, rfl, le_refl 0⟩)).2 4 100⟩

/-- C10: for a fixed quantity `q ≥ 0` and original servings `s1 ≥ 1`, the
scaled quantity is monotonically non-decreasing in the desired serving
count. -/
theorem calculateQuantity_monotone (q s1 s2 s2' : ℚ)
    (hq : 0 ≤ q) (hs1 : 1 ≤ s1) (h1 : 1 ≤ s2') (h12 : s2' ≤ s2) :
    calculateQuantity s1 s2' q ≤ calculateQuantity s1 s2 q := by
  unfold calculateQuantity
  gcongr

/-- Witness for C10 at `q = 100`, `s1 = 4`, `s2' = 2`, `s2 = 6`. -/
theorem calculateQuantity_monotone_witness :
    (0:ℚ) ≤ 100 ∧ (1:ℚ) ≤ 4 ∧ (1:ℚ) ≤ 2 ∧ (2:ℚ) ≤ 6 ∧
    calculateQuantity 4 2 100 ≤ calculateQuantity 4 6 100 :=
  ⟨by decide, by decide, by decide, by decide,
    calculateQuantity_monotone 100 4 6 2 (by decide) (by decide) (by decide) (by decide)⟩

/-- Rendering the rounded value again formats identically: formatting
factors through rounding to two decimal places. -/
theorem formatQuantity_roundTwo (q : ℚ) :
    formatQuantity (roundTwo q) = formatQuantity q := by
  unfold formatQuantity roundTwo
  rw [div_mul_cancel₀ _ (by norm_num : (100:ℚ) ≠ 0), round_intCast]

/-- The rounded value is a whole number exactly when its hundredths
integer is divisible by 100. -/
theorem roundTwo_whole_iff (q : ℚ) :
    roundTwo q = (⌊roundTwo q⌋ : ℚ) ↔ round (q * 100) % 100 = 0 := by
  unfold roundTwo
  constructor
  · intro h
    have h100 : (round (q * 100) : ℚ) = (⌊(round (q * 100) : ℚ) / 100⌋ : ℚ) * 100 := by
      rw [← h]
      field_simp
    have hz : round (q * 100) = ⌊(round (q * 100) : ℚ) / 100⌋ * 100 := by
      exact_mod_cast h100
    rw [hz]
    exact Int.mul_emod_left _ _
  · intro h
    obtain ⟨c, hc⟩ : (100:ℤ) ∣ round (q * 100) := Int.dvd_of_emod_eq_zero h
    rw [hc]
    push_cast
    rw [mul_comm, mul_div_assoc, div_self (by norm_num : (100:ℚ) ≠ 0), mul_one]
    rw [Int.floor_intCast]

/-- C8: the end-to-end example — a recipe with 4 original servings and a
100 g ingredient, scaled to 6 servings, displays the quantity "150". -/
theorem portion_end_to_end :
    formatQuantity (calculateQuantity 4 6 100) = "150" := by
  have h : calculateQuantity 4 6 100 = (150:ℚ) := by
    unfold calculateQuantity
    norm_num
  rw [h]
  unfold formatQuantity
  have hr : round ((150:ℚ) * 100) = 15000 := by
    norm_num [round_eq]
  rw [hr]
  decide

/-- C2: the formatter first rounds to 2 decimal places (formatting factors
through `roundTwo`, and the rendering depends only on the hundredths
integer); a whole rounded value (hundredths divisible by 100, equivalently
`roundTwo q = ⌊roundTwo q⌋`) renders with no decimal point; otherwise the
rendering keeps a decimal point and strips trailing zeros (never ends in
a zero digit); and the four concrete examples hold. -/
theorem formatQuantity_spec :
    (∀ q : ℚ, formatQuantity (roundTwo q) = formatQuantity q) ∧
    (∀ q : ℚ, roundTwo q = (⌊roundTwo q⌋ : ℚ) ↔ round (q * 100) % 100 = 0) ∧
    (∀ q : ℚ, (formatQuantity q).data = formatChars (round (q * 100))) ∧
    (∀ n : ℤ, n % 100 = 0 → '.' ∉ formatChars n) ∧
    (∀ n : ℤ, n % 100 ≠ 0 →
      '.' ∈ formatChars n ∧ (formatChars n).getLast? ≠ some '0') ∧
    formatQuantity 2 = "2" ∧ formatQuantity (5/2) = "2.5" ∧
    formatQuantity (2333333/1000000) = "2.33" ∧ formatQuantity (30001/10000) = "3" := by
  refine ⟨formatQuantity_roundTwo, roundTwo_whole_iff, fun q => rfl,
    fun n h => formatChars_whole h, fun n h => formatChars_fractional h,
    ?_, ?_, ?_, ?_⟩
  · unfold formatQuantity
    have hr : round ((2:ℚ) * 100) = 200 := by norm_num [round_eq]
    rw [hr]
    decide
  · unfold formatQuantity
    have hr : round ((5/2:ℚ) * 100) = 250 := by norm_num [round_eq]
    rw [hr]
    decide
  · unfold formatQuantity
    have hr : round ((2333333/1000000:ℚ) * 100) = 233 := by norm_num [round_eq]
    rw [hr]
    decide
  · unfold formatQuantity
    have hr : round ((30001/10000:ℚ) * 100) = 300 := by norm_num [round_eq]
    rw [hr]
    decide

/-- Witness for C2: the whole-number clause at hundredths 200 (renders
"2", no decimal point) and the fractional clause at hundredths 250
(renders "2.5", not ending in a zero). -/
theorem formatQuantity_spec_witness :
    ((200:ℤ) % 100 = 0 ∧ '.' ∉ formatChars 200) ∧
    ((250:ℤ) % 100 ≠ 0 ∧ '.' ∈ formatChars 250 ∧
      (formatChars 250).getLast? ≠ some '0') :=
  ⟨⟨by decide, formatQuantity_spec.2.2.2.1 200 (by decide)⟩,
   ⟨by decide, (formatQuantity_spec.2.2.2.2.1 250 (by decide)).1,
    (formatQuantity_spec.2.2.2.2.1 250 (by decide)).2⟩⟩

/-- C5 counterexample: a form state whose only ingredient has the default
empty name passes the submit validation, yet the submitted payload
contains no ingredient at all — in particular no ingredient with a
non-empty name — contradicting the claim that such a save is rejected. -/
theorem handleSubmit_blankIngredients_cex :
    (handleSubmit sampleBlankIngredientForm).isSome = true ∧
    Option.map RecipePayload.ingredients (handleSubmit sampleBlankIngredientForm) =
      some [] := by
  decide

/-- C5 amended: whenever `handleSubmit` proceeds past validation, the
submitted payload has the form's non-empty step list with every step's
trimmed description non-empty, and its ingredient list keeps exactly the
ingredients with non-empty trimmed names — which therefore all have
non-empty names, but may be zero in number; the validation only requires
the pre-filter ingredient list to be non-empty. -/
theorem handleSubmit_guarantees (r : RecipeFormState) (p : RecipePayload)
    (h : handleSubmit r = some p) :
    r.title ≠ "" ∧ r.ingredients ≠ [] ∧ r.category ≠ none ∧
    p.steps = r.steps ∧ p.steps ≠ [] ∧
    (∀ st ∈ p.steps, jsTrim st.description ≠ "") ∧
    p.ingredients = r.ingredients.filter (fun ing => jsTrim ing.name ≠ "") ∧
    (∀ ing ∈ p.ingredients, jsTrim ing.name ≠ "") := by
  unfold handleSubmit at h
  split_ifs at h with hcond
  push_neg at hcond
  obtain ⟨ht, hi, hc, hs, hany⟩ := hcond
  have hp := Option.some.inj h
  subst hp
  refine ⟨ht, hi, hc, rfl, hs, ?_, rfl, ?_⟩
  · intro st hst
    rw [ne_eq, Bool.not_eq_true, List.any_eq_false] at hany
    have h2 := hany st hst
    simpa using h2
  · intro ing hing
    have h2 := (List.mem_filter.mp hing).2
    simpa using h2

/-- Witness for C5 amended, at a fully-filled form with one named and one
blank-named ingredient. -/
theorem handleSubmit_guarantees_witness :
    sampleValidForm.title ≠ "" ∧ sampleValidForm.ingredients ≠ [] ∧
    sampleValidForm.category ≠ none ∧
    sampleValidPayload.steps = sampleValidForm.steps ∧
    sampleValidPayload.steps ≠ [] ∧
    (∀ st ∈ sampleValidPayload.steps, jsTrim st.description ≠ "") ∧
    sampleValidPayload.ingredients =
      sampleValidForm.ingredients.filter (fun ing => jsTrim ing.name ≠ "") ∧
    (∀ ing ∈ sampleValidPayload.ingredients, jsTrim ing.name ≠ "") :=
  handleSubmit_guarantees sampleValidForm sampleValidPayload (by decide)

/-- C6 counterexample: for the legacy string " mix \nbake" the first
non-blank line is " mix " but the produced step description is the
trimmed "mix", so the description does not equal the line's text. -/
theorem convertLegacySteps_trim_cex :
    nonBlankLines " mix \nbake" = [" mix ", "bake"] ∧
    (convertLegacySteps " mix \nbake").map CookingStep.description = ["mix", "bake"] ∧
    (" mix " : String) ≠ "mix" := by
  decide

/-- C6 amended: converting a legacy newline-delimited steps string yields
one step per non-blank line, in original order, numbered sequentially
from 1, with description equal to the line's text trimmed of surrounding
whitespace; blank and whitespace-only lines produce no step. -/
theorem convertLegacySteps_spec (s : String) (k : ℕ)
    (hk : k < (nonBlankLines s).length) :
    (convertLegacySteps s).length = (nonBlankLines s).length ∧
    ((convertLegacySteps s)[k]?).map CookingStep.stepNumber = some (k + 1) ∧
    ((convertLegacySteps s)[k]?).map CookingStep.description =
      ((nonBlankLines s)[k]?).map jsTrim := by
  refine ⟨numberStepsFrom_length 1 _, ?_, (numberStepsFrom_getElem? 1 k _).2⟩
  have h1 := (numberStepsFrom_getElem? 1 k (nonBlankLines s)).1
  unfold convertLegacySteps
  rw [h1, List.getElem?_eq_getElem hk]
  simp [Nat.add_comm]

/-- Witness for C6 amended, at a legacy string with a blank middle line,
position 1. -/
theorem convertLegacySteps_spec_witness :
    1 < (nonBlankLines "Нарізати\n\nЗмішати").length ∧
    ((convertLegacySteps "Нарізати\n\nЗмішати").length =
       (nonBlankLines "Нарізати\n\nЗмішати").length ∧
     ((convertLegacySteps "Нарізати\n\nЗмішати")[1]?).map CookingStep.stepNumber =
       some (1 + 1) ∧
     ((convertLegacySteps "Нарізати\n\nЗмішати")[1]?).map CookingStep.description =
       ((nonBlankLines "Нарізати\n\nЗмішати")[1]?).map jsTrim) :=
  ⟨by decide, convertLegacySteps_spec "Нарізати\n\nЗмішати" 1 (by decide)⟩

/-- C7: on a correctly numbered step list, `addStep` (which assigns
`stepNumber = steps.length + 1`), `removeStep` at any index (which
renumbers), and `moveStep` between any indices (which renumbers past its
`toIndex` bounds check, or is a no-op when `toIndex` is out of range)
each yield a list satisfying `steps[k].stepNumber = k + 1` at every
position — for `moveStep`, at every outcome representable as a list of
cooking steps. -/
theorem stepOps_preserve_numbering (steps : List CookingStep) (newId : String) (i : ℕ)
    (j : ℤ) (h : stepsNumbered steps) :
    stepsNumbered (addStep steps newId) ∧ stepsNumbered (removeStep steps i) ∧
    (∀ res, moveStep steps i j = some res → stepsNumbered res) := by
  refine ⟨?_, stepsNumbered_renumberSteps _, ?_⟩
  · intro k hk
    unfold addStep at hk ⊢
    rw [List.length_append] at hk
    by_cases hlt : k < steps.length
    · rw [List.getElem_append_left hlt]
      exact h k hlt
    · have hk' : k = steps.length := by
        simp only [List.length_singleton] at hk
        omega
      rw [List.getElem_concat_length _ _ _ hk', hk']
  · intro res hres
    unfold moveStep at hres
    split_ifs at hres with hguard
    · obtain rfl := Option.some.inj hres
      exact h
    · cases hm : steps[i]? with
      | none =>
        rw [hm] at hres
        simp at hres
      | some movedStep =>
        rw [hm] at hres
        obtain rfl := Option.some.inj hres
        exact stepsNumbered_renumberSteps _

/-- Witness for C7 at a concrete two-step list: adding a fresh step,
removing index 0, and moving index 0 to index 1. -/
theorem stepOps_preserve_numbering_witness :
    stepsNumbered sampleSteps ∧
    (stepsNumbered (addStep sampleSteps "step-3") ∧
     stepsNumbered (removeStep sampleSteps 0)) ∧
    moveStep sampleSteps 0 1 = some sampleMoved ∧ stepsNumbered sampleMoved :=
  ⟨by decide,
   ⟨(stepOps_preserve_numbering sampleSteps "step-3" 0 1 (by decide)).1,
    (stepOps_preserve_numbering sampleSteps "step-3" 0 1 (by decide)).2.1⟩,
   by decide,
   (stepOps_preserve_numbering sampleSteps "step-3" 0 1 (by decide)).2.2 sampleMoved (by decide)⟩
